import Mathlib

/-!
Verification of the query-admission core of `influxdb-proxy` (`proxy.go`).

The development shallowly embeds the data model of the InfluxQL abstract
syntax that the proxy inspects (measurements, sources, statements, from the
`influxql` library types the code traverses), the admission check `allowed`
and its helper `lookup` from `proxy.go`, and the `/query` branch of
`Proxy.ServeHTTP` together with `reportError`.

Parsing of raw InfluxQL text is performed by the third-party `influxql`
library; the embedding keeps the parse step abstract (a parameter
`parse : String -> Except String Stmt`) and, for concrete evaluations,
uses a fixture table recording the documented results of
`influxql.NewParser(strings.NewReader(q)).ParseStatement()` on the handful
of concrete queries appearing in this development.
-/

namespace InfluxProxy

/-- One measurement reference, mirroring `influxql.Measurement`: fields
`Database`, `RetentionPolicy`, `Name` and `Regex` (a regular-expression
source has `Regex` set and an empty `Name`). -/
structure Measurement where
  database : String
  retentionPolicy : String
  name : String
  regex : Option String
deriving DecidableEq, Repr

mutual
/-- A `FROM`-clause item, mirroring `influxql.Source`: either a
`Measurement` or a `SubQuery` holding a nested select statement (its
rendered field list and its own sources). -/
inductive Source where
  | meas (m : Measurement)
  | subquery (fields : String) (sources : Sources)

/-- A source list, mirroring `influxql.Sources` (`[]Source`); the list
structure is given by its own constructors so that the traversals below
are structurally recursive. -/
inductive Sources where
  | nil
  | cons (head : Source) (tail : Sources)
end

/-- A select statement as the proxy inspects it, mirroring
`influxql.SelectStatement`: the rendered field list and the `FROM`
sources. Clauses the admission check never looks at (condition,
dimensions, limits, ...) are elided. -/
structure SelectStm where
  fields : String
  sources : Sources

/-- A parsed InfluxQL statement, mirroring the `influxql.Statement`
interface: the select case together with representative non-select
statement kinds (the admission check distinguishes statements only through
their rendered form and the select type assertion). -/
inductive Stmt where
  | select (s : SelectStm)
  | dropDatabase (name : String)
  | createDatabase (name : String)
  | showDatabases

/-- `influxql.Measurement.String()`: the database qualifier, the
retention-policy qualifier, then the name, or the regex text when the name
is empty. Identifier quoting is elided (all names in this development are
plain identifiers, for which `QuoteIdent` is the identity). -/
def Measurement.render (m : Measurement) : String :=
  (if m.database = "" then "" else m.database ++ ".")
  ++ (if m.retentionPolicy = "" then "" else m.retentionPolicy)
  ++ (if m.database = "" ∧ m.retentionPolicy = "" then "" else ".")
  ++ (if m.name = "" then
        (match m.regex with
         | some r => r
         | none => "")
      else m.name)

mutual
/-- `influxql.Source` rendering for the two source kinds: a measurement
renders itself, a subquery renders as the parenthesised nested select
(`influxql.SubQuery.String()` and `influxql.SelectStatement.String()`,
whose output begins with `SELECT ` followed by the fields and, when
sources are present, ` FROM ` and the rendered source list). -/
def renderSource : Source → String
  | .meas m => m.render
  | .subquery f srcs =>
      "(" ++ ("SELECT " ++ (f ++
        (match srcs with
         | .nil => ""
         | _ => " FROM " ++ renderSources srcs))) ++ ")"

/-- `influxql.Sources.String()`: the sources joined by `, `. -/
def renderSources : Sources → String
  | .nil => ""
  | .cons s .nil => renderSource s
  | .cons s rest => renderSource s ++ ", " ++ renderSources rest
end

/-- `influxql.SelectStatement.String()`, restricted to the parts the
statement carries here: `SELECT `, the fields, and when sources are
present ` FROM ` and the rendered source list. -/
def SelectStm.render (s : SelectStm) : String :=
  "SELECT " ++ (s.fields ++
    (match s.sources with
     | .nil => ""
     | _ => " FROM " ++ renderSources s.sources))

/-- `Statement.String()` for the embedded statement kinds: every
non-select statement renders beginning with its fixed command keyword, as
in the `influxql` AST. -/
def Stmt.render : Stmt → String
  | .select s => s.render
  | .dropDatabase n => "DROP DATABASE " ++ n
  | .createDatabase n => "CREATE DATABASE " ++ n
  | .showDatabases => "SHOW DATABASES"

/-- Discriminant of the Go type assertion target: whether the statement
is a `*influxql.SelectStatement`. -/
def Stmt.isSelect : Stmt → Bool
  | .select _ => true
  | _ => false

mutual
/-- The per-source step of `influxql.Sources.Measurements()`: a
measurement contributes itself, a subquery contributes the measurements of
its own source list. -/
def sourceMeasurements : Source → List Measurement
  | .meas m => [m]
  | .subquery _ srcs => measurements srcs

/-- `influxql.Sources.Measurements()`: all measurements of the source
list, descending into the sources of every nested subquery. -/
def measurements : Sources → List Measurement
  | .nil => []
  | .cons s rest => sourceMeasurements s ++ measurements rest
end

/-- `lookup` from `proxy.go`: scan the allow-list for an element equal
(Go `==`, exact string equality) to `name`. -/
def lookup (allowedList : List String) (name : String) : Bool :=
  allowedList.any (fun item => item == name)

/-- The error values of `proxy.go`: `ErrQueryEmpty`, the wrapped parse
error of `fmt.Errorf`, and `ErrQueryNotAllowed`. -/
inductive AdmissionError where
  | emptyQuery
  | parseError (msg : String)
  | notAllowed
deriving DecidableEq, Repr

/-- Outcome of the admission check: `ok` models a `nil` error return,
`err` a non-`nil` error, and `panicked` the Go runtime panic that the
unchecked type assertion `stmt.(*influxql.SelectStatement)` would raise on
a non-select statement. -/
inductive Outcome where
  | ok
  | err (e : AdmissionError)
  | panicked
deriving DecidableEq, Repr

/-- The measurement loop of `allowed` in `proxy.go`: walk the extracted
measurements in order and return `ErrQueryNotAllowed` at the first one
whose name `lookup` does not find in the allow-list. -/
def checkMeasurements (allowedList : List String) : List Measurement → Option AdmissionError
  | [] => none
  | m :: rest =>
      if lookup allowedList m.name then checkMeasurements allowedList rest
      else some .notAllowed

/-- ASCII lowering of a string, character list form; models
`strings.ToLower` on the ASCII statement renderings involved here. -/
def lowerData (s : String) : List Char :=
  s.data.map Char.toLower

/-- The select test of `allowed` in `proxy.go`:
`strings.HasPrefix(strings.ToLower(stmt.String()), "select")`. -/
def startsWithSelect (rendered : String) : Bool :=
  "select".data.isPrefixOf (lowerData rendered)

/-- The part of `allowed` (`proxy.go`) after parsing: the select test on
the rendered statement, the unchecked type assertion, and the measurement
loop. -/
def allowedStmt (stmt : Stmt) (allowedList : List String) : Outcome :=
  if startsWithSelect stmt.render = false then .err .notAllowed
  else
    match stmt with
    | .select s =>
        match checkMeasurements allowedList (measurements s.sources) with
        | some e => .err e
        | none => .ok
    | _ => .panicked

/-- `allowed` from `proxy.go`, with the call to
`influxql.NewParser(strings.NewReader(q)).ParseStatement()` abstracted as
the `parse` parameter: empty-query test, parse, then the statement
check. -/
def allowed (parse : String → Except String Stmt) (q : String)
    (allowedList : List String) : Outcome :=
  if q = "" then .err .emptyQuery
  else
    match parse q with
    | .error msg => .err (.parseError msg)
    | .ok stmt => allowedStmt stmt allowedList

/-- Modelled from the `influxql` library (a third-party dependency, not
part of this repository): the results of `ParseStatement` on the concrete
query fixtures used in this development. `ParseStatement` parses a single
statement and leaves any input after it unconsumed — the optional-clause
parsers unscan at a token they do not expect, and nothing requires end of
input — so on a semicolon-separated batch it returns only the first
statement. A bare regular-expression source parses to a `Measurement`
whose `Regex` field is set and whose `Name` is the empty string. -/
def parseFixtures (q : String) : Except String Stmt :=
  if q = "select a FROM m0" then
    .ok (.select ⟨"a", .cons (.meas ⟨"", "", "m0", none⟩) .nil⟩)
  else if q = "select a FROM /.*/" then
    .ok (.select ⟨"a", .cons (.meas ⟨"", "", "", some ".*"⟩) .nil⟩)
  else if q = "select a FROM m1;DROP DATABASE x" then
    .ok (.select ⟨"a", .cons (.meas ⟨"", "", "m1", none⟩) .nil⟩)
  else if q = "drop database test" then
    .ok (.dropDatabase "test")
  else
    .error "invalid statement"

/-- Strip the database and retention-policy qualifiers from one
measurement, keeping its name and regex. -/
def stripM (m : Measurement) : Measurement :=
  { m with database := "", retentionPolicy := "" }

mutual
/-- Qualifier stripping on one source. -/
def stripQualsSource : Source → Source
  | .meas m => .meas (stripM m)
  | .subquery f srcs => .subquery f (stripQuals srcs)

/-- Qualifier stripping on a source list, recursing into subqueries. -/
def stripQuals : Sources → Sources
  | .nil => .nil
  | .cons s rest => .cons (stripQualsSource s) (stripQuals rest)
end

/-- Message of each admission error, as `fmt.Sprintf("%v", err)` renders
it in `reportError`: the fixed texts of `ErrQueryEmpty` and
`ErrQueryNotAllowed`, and the wrapping text of
`fmt.Errorf("error parsing InfluxQL statement %w", err)`. -/
def errMessage : AdmissionError → String
  | .emptyQuery => "empty query not allowed"
  | .notAllowed => "query not allowed"
  | .parseError msg => "error parsing InfluxQL statement " ++ msg

/-- Lower-case hexadecimal digit, as `encoding/json` emits them. -/
def hexDigit (n : Nat) : Char :=
  if n < 10 then Char.ofNat (48 + n) else Char.ofNat (87 + n)

/-- Escaping of one character inside a JSON string, mirroring
`encoding/json.Marshal` (HTML escaping on, its default): quote, backslash,
the named control escapes, `<`, `>`, `&`, and `\u00XX` for the remaining
control characters. -/
def escapeJSONChar (c : Char) : String :=
  if c = '"' then "\\\""
  else if c = '\\' then "\\\\"
  else if c = '\n' then "\\n"
  else if c = '\r' then "\\r"
  else if c = '\t' then "\\t"
  else if c = '<' then "\\u003c"
  else if c = '>' then "\\u003e"
  else if c = '&' then "\\u0026"
  else if c.toNat < 32 then
    "\\u00" ++ String.mk [hexDigit (c.toNat / 16), hexDigit (c.toNat % 16)]
  else String.mk [c]

/-- JSON string escaping, character by character. -/
def escapeJSON (s : String) : String :=
  String.join (s.data.map escapeJSONChar)

/-- The body `reportError` writes: `json.Marshal` of the anonymous struct
with the single `error` field (the marshal of this struct never fails, so
the internal-server-error fallback branch is not taken). Literal braces
are written with their escapes. -/
def jsonErrorBody (msg : String) : String :=
  "\x7b\"error\":\"" ++ escapeJSON msg ++ "\"\x7d"

/-- An HTTP response as far as the handler determines it: status code,
content type, body. -/
structure HTTPResponse where
  status : Nat
  contentType : String
  body : String
deriving DecidableEq, Repr

/-- What `Proxy.ServeHTTP` does with a request: hand it to the reverse
proxy (`p.proxy.ServeHTTP`), answer it locally, or panic (the type
assertion inside `allowed`, were it reachable). -/
inductive HandlerAction where
  | forward
  | respond (r : HTTPResponse)
  | panicked
deriving DecidableEq, Repr

/-- `reportError` from `proxy.go`: the JSON error object with the given
status code and the JSON content type. -/
def reportError (msg : String) (code : Nat) : HTTPResponse :=
  ⟨code, "application/json; charset=UTF-8", jsonErrorBody msg⟩

/-- Build-injected version string of `proxy.go` (empty unless set by the
build). -/
def version : String := ""

/-- Build-injected commit string of `proxy.go` (empty unless set by the
build). -/
def commit : String := ""

/-- `Proxy.ServeHTTP` from `proxy.go`: the method filter, then the path
switch; on `/query` the admission check decides between forwarding and
`reportError` with status 406 (`http.StatusNotAcceptable`). The raw query
text `q` stands for `r.URL.Query().Get("q")`. -/
def serveHTTP (parse : String → Except String Stmt) (method path q : String)
    (allowedList : List String) : HandlerAction :=
  if method ≠ "GET" ∧ method ≠ "POST" then
    .respond (reportError ("method not allowed") 405)
  else if path = "/ping" then .forward
  else if path = "/write" then .respond (reportError ("query is not supported") 501)
  else if path = "/query" then
    match allowed parse q allowedList with
    | .ok => .forward
    | .err e => .respond (reportError (errMessage e) 406)
    | .panicked => .panicked
  else if path = "/debug/version" then
    .respond ⟨200, "text/plain", version ++ "\n" ++ commit⟩
  else
    .respond ⟨404, "text/plain; charset=utf-8", "not found\n"⟩

/-! ## Helper lemmas -/

theorem dataAppend (a b : String) : (a ++ b).data = a.data ++ b.data := by
  cases a
  cases b
  rfl

theorem lookup_iff (L : List String) (n : String) : lookup L n = true ↔ n ∈ L := by
  simp [lookup]

theorem checkMeasurements_eq_none_iff (L : List String) (ms : List Measurement) :
    checkMeasurements L ms = none ↔ ∀ m ∈ ms, m.name ∈ L := by
  induction ms with
  | nil => simp [checkMeasurements]
  | cons m rest ih =>
      cases h : lookup L m.name with
      | true =>
          simp [checkMeasurements, h, ih, List.forall_mem_cons, (lookup_iff L m.name).mp h]
      | false =>
          have hnm : ¬ m.name ∈ L := by
            intro hm
            rw [(lookup_iff L m.name).mpr hm] at h
            cases h
          simp [checkMeasurements, h, List.forall_mem_cons, hnm]

theorem checkMeasurements_none_or_notAllowed (L : List String) (ms : List Measurement) :
    checkMeasurements L ms = none ∨ checkMeasurements L ms = some .notAllowed := by
  induction ms with
  | nil => exact Or.inl rfl
  | cons m rest ih =>
      cases h : lookup L m.name with
      | true => simpa [checkMeasurements, h] using ih
      | false => simp [checkMeasurements, h]

theorem startsWithSelect_SELECT_append (rest : String) :
    startsWithSelect ("SELECT " ++ rest) = true := by
  unfold startsWithSelect lowerData
  rw [dataAppend, List.map_append]
  have h1 : ("SELECT ".data).map Char.toLower = "select".data ++ [' '] := by decide
  rw [h1, List.append_assoc, List.isPrefixOf_iff_prefix]
  exact List.prefix_append _ _

theorem startsWithSelect_select_render (s : SelectStm) :
    startsWithSelect (Stmt.render (.select s)) = true := by
  simp only [Stmt.render, SelectStm.render]
  exact startsWithSelect_SELECT_append _

theorem startsWithSelect_head_ne (c : Char) (cl : List Char)
    (h : Char.toLower c ≠ 's') :
    startsWithSelect (String.mk (c :: cl)) = false := by
  unfold startsWithSelect lowerData
  rw [Bool.eq_false_iff]
  intro hpre
  rw [List.isPrefixOf_iff_prefix] at hpre
  have hsel : "select".data = 's' :: "elect".data := rfl
  have hdata : (String.mk (c :: cl)).data = c :: cl := rfl
  rw [hsel, hdata, List.map_cons, List.cons_prefix_cons] at hpre
  exact h hpre.1.symm

theorem startsWithSelect_dropDatabase (n : String) :
    startsWithSelect (Stmt.render (.dropDatabase n)) = false := by
  obtain ⟨l⟩ := n
  have h : Stmt.render (.dropDatabase (String.mk l)) =
      String.mk ('D' :: ("ROP DATABASE ".data ++ l)) := rfl
  rw [h]
  exact startsWithSelect_head_ne _ _ (by decide)

theorem startsWithSelect_createDatabase (n : String) :
    startsWithSelect (Stmt.render (.createDatabase n)) = false := by
  obtain ⟨l⟩ := n
  have h : Stmt.render (.createDatabase (String.mk l)) =
      String.mk ('C' :: ("REATE DATABASE ".data ++ l)) := rfl
  rw [h]
  exact startsWithSelect_head_ne _ _ (by decide)

theorem startsWithSelect_showDatabases :
    startsWithSelect (Stmt.render .showDatabases) = false := by decide

theorem startsWithSelect_nonselect (stmt : Stmt) (h : stmt.isSelect = false) :
    startsWithSelect stmt.render = false := by
  cases stmt with
  | select s => cases h
  | dropDatabase n => exact startsWithSelect_dropDatabase n
  | createDatabase n => exact startsWithSelect_createDatabase n
  | showDatabases => exact startsWithSelect_showDatabases

theorem allowedStmt_select_eq (s : SelectStm) (L : List String) :
    allowedStmt (.select s) L =
      (match checkMeasurements L (measurements s.sources) with
       | some e => Outcome.err e
       | none => Outcome.ok) := by
  unfold allowedStmt
  rw [startsWithSelect_select_render]
  simp

theorem allowedStmt_select_ok_iff (s : SelectStm) (L : List String) :
    allowedStmt (.select s) L = .ok ↔ ∀ m ∈ measurements s.sources, m.name ∈ L := by
  rw [allowedStmt_select_eq, ← checkMeasurements_eq_none_iff]
  cases h : checkMeasurements L (measurements s.sources) <;> simp [h]

theorem allowedStmt_nonselect_eq (stmt : Stmt) (L : List String)
    (h : stmt.isSelect = false) :
    allowedStmt stmt L = .err .notAllowed := by
  unfold allowedStmt
  rw [startsWithSelect_nonselect stmt h]
  simp

theorem allowedStmt_ok_iff (stmt : Stmt) (L : List String) :
    allowedStmt stmt L = .ok ↔
      ∃ s, stmt = .select s ∧ ∀ m ∈ measurements s.sources, m.name ∈ L := by
  cases stmt with
  | select s => simp [allowedStmt_select_ok_iff]
  | dropDatabase n => simp [allowedStmt_nonselect_eq (.dropDatabase n) L rfl]
  | createDatabase n => simp [allowedStmt_nonselect_eq (.createDatabase n) L rfl]
  | showDatabases => simp [allowedStmt_nonselect_eq .showDatabases L rfl]

mutual
theorem sourceMeasurements_strip (s : Source) :
    sourceMeasurements (stripQualsSource s) = (sourceMeasurements s).map stripM := by
  cases s with
  | meas m => rfl
  | subquery f srcs => exact measurements_strip srcs

theorem measurements_strip (l : Sources) :
    measurements (stripQuals l) = (measurements l).map stripM := by
  cases l with
  | nil => rfl
  | cons s rest =>
      show sourceMeasurements (stripQualsSource s) ++ measurements (stripQuals rest) = _
      rw [sourceMeasurements_strip s, measurements_strip rest]
      simp [measurements]
end

theorem checkMeasurements_map_stripM (L : List String) (ms : List Measurement) :
    checkMeasurements L (ms.map stripM) = checkMeasurements L ms := by
  induction ms with
  | nil => rfl
  | cons m rest ih => simp [checkMeasurements, stripM, ih]

theorem serveHTTP_query_eq (parse : String → Except String Stmt)
    (method q : String) (L : List String)
    (hm : method = "GET" ∨ method = "POST") :
    serveHTTP parse method "/query" q L =
      (match allowed parse q L with
       | .ok => HandlerAction.forward
       | .err e => .respond (reportError (errMessage e) 406)
       | .panicked => .panicked) := by
  have hcond : ¬ (method ≠ "GET" ∧ method ≠ "POST") := by
    rcases hm with h | h <;> simp [h]
  unfold serveHTTP
  rw [if_neg hcond, if_neg (by decide : ¬ ("/query" : String) = "/ping"),
    if_neg (by decide : ¬ ("/query" : String) = "/write"), if_pos rfl]

/-! ## Claims -/

/-- C1 (failing input for the claim): the code parses the raw query with
`ParseStatement`, which returns only the first statement of a
semicolon-separated batch, so a batch whose second statement is a
`DROP DATABASE` — which the claim says must be denied — is admitted when
the first statement passes. -/
theorem batch_later_statement_ignored :
    allowed parseFixtures ("select a FROM m1;DROP DATABASE x") ["m1"] = .ok := by
  decide

/-- C2 (failing input for the claim): `lookup` compares with Go `==`
(exact, case-sensitive string equality), so the source `m0` is denied
against the allow-list `M0, m1, M2` although the claim (and the test
`mixedCasesAllowed` of the repository) expect it to be admitted. -/
theorem mixed_case_source_denied :
    allowed parseFixtures ("select a FROM m0") ["M0", "m1", "M2"] =
      .err .notAllowed := by
  decide

/-- C3 (failing input for the claim): a regular-expression source parses
to a measurement whose name is the empty string, and `allowed` never
inspects the regex field, so the regex query is admitted as soon as the
allow-list contains the empty string — contradicting the claim that the
result is `NotAllowed` regardless of allow-list contents. -/
theorem regex_source_admitted_with_empty_entry :
    allowed parseFixtures ("select a FROM /.*/") [""] = .ok := by
  decide

/-- C4: source extraction recurses into every nested `FROM` clause: a
select statement is admitted exactly when every leaf measurement name
anywhere in the nesting is an element of the allow-list, and otherwise the
result is the `NotAllowed` error. -/
theorem nested_sources_admitted_iff_all_leaves_allowlisted :
    ∀ (s : SelectStm) (L : List String),
      (allowedStmt (.select s) L = .ok ↔ ∀ m ∈ measurements s.sources, m.name ∈ L)
      ∧ (allowedStmt (.select s) L = .ok ∨ allowedStmt (.select s) L = .err .notAllowed) := by
  intro s L
  refine ⟨allowedStmt_select_ok_iff s L, ?_⟩
  rw [allowedStmt_select_eq]
  rcases checkMeasurements_none_or_notAllowed L (measurements s.sources) with h | h <;>
    rw [h] <;> simp

/-- C4 witness: a doubly nested subquery over the leaf `m1` is admitted
under the allow-list `m0, m1`. -/
theorem nested_sources_admitted_iff_all_leaves_allowlisted_witness :
    allowedStmt
      (.select ⟨"a",
        .cons (.subquery "*"
          (.cons (.subquery "*" (.cons (.meas ⟨"", "", "m1", none⟩) .nil)) .nil)) .nil⟩)
      ["m0", "m1"] = .ok :=
  (nested_sources_admitted_iff_all_leaves_allowlisted _ ["m0", "m1"]).1.mpr (by decide)

/-- C5: database and retention-policy qualifiers never influence the
admission outcome — stripping them from every measurement, however deeply
nested, leaves the result unchanged — and concretely `db.rt.m1` matches
the allow-list entry `m1` and `db..m2` matches `m2`. -/
theorem qualifiers_ignored_for_matching :
    (∀ (f : String) (srcs : Sources) (L : List String),
        allowedStmt (.select ⟨f, srcs⟩) L = allowedStmt (.select ⟨f, stripQuals srcs⟩) L)
    ∧ allowedStmt (.select ⟨"a", .cons (.meas ⟨"db", "rt", "m1", none⟩) .nil⟩) ["m1"] = .ok
    ∧ allowedStmt (.select ⟨"a", .cons (.meas ⟨"db", "", "m2", none⟩) .nil⟩) ["m2"] = .ok := by
  refine ⟨?_, by decide, by decide⟩
  intro f srcs L
  rw [allowedStmt_select_eq, allowedStmt_select_eq]
  have h : checkMeasurements L (measurements (stripQuals srcs)) =
      checkMeasurements L (measurements srcs) := by
    rw [measurements_strip, checkMeasurements_map_stripM]
  rw [h]

/-- C6: on the `/query` path (for the two accepted methods), the handler
forwards to the backend exactly when the admission check returns no
error; on every denial it instead answers with status 406 (non-2xx) and
the JSON error object, and does not forward. -/
theorem query_path_forwards_iff_admitted :
    ∀ (parse : String → Except String Stmt) (method q : String) (L : List String),
      (method = "GET" ∨ method = "POST") →
      (serveHTTP parse method "/query" q L = .forward ↔ allowed parse q L = .ok)
      ∧ (∀ e, allowed parse q L = .err e →
          serveHTTP parse method "/query" q L =
            .respond ⟨406, "application/json; charset=UTF-8", jsonErrorBody (errMessage e)⟩
          ∧ ¬ (200 ≤ 406 ∧ 406 ≤ 299)) := by
  intro parse method q L hm
  have heq := serveHTTP_query_eq parse method q L hm
  constructor
  · rw [heq]
    cases hA : allowed parse q L <;> simp [hA]
  · intro e he
    rw [heq, he]
    exact ⟨rfl, by decide⟩

/-- C6 witness: with the fixture table, an admitted query is forwarded
and the empty query is answered with status 406 and the JSON error
body. -/
theorem query_path_forwards_iff_admitted_witness :
    serveHTTP parseFixtures ("GET") "/query" ("select a FROM m0") ["m0"] = .forward
    ∧ serveHTTP parseFixtures ("GET") "/query" ("") ["m0"] =
        .respond ⟨406, "application/json; charset=UTF-8",
          jsonErrorBody ("empty query not allowed")⟩ := by
  constructor
  · exact (query_path_forwards_iff_admitted parseFixtures "GET" ("select a FROM m0")
      ["m0"] (Or.inl rfl)).1.mpr (by decide)
  · exact ((query_path_forwards_iff_admitted parseFixtures "GET" ("") ["m0"]
      (Or.inl rfl)).2 .emptyQuery rfl).1

/-- C7: the empty raw query is rejected with the empty-query error before
any parsing is attempted: the outcome is the same for every parse
function and every allow-list, including the empty one. -/
theorem emptyQuery_rejected_for_all_allowlists :
    ∀ (parse : String → Except String Stmt) (L : List String),
      allowed parse ("") L = .err .emptyQuery := by
  intro parse L
  rfl

/-- C8: a raw query that parses successfully to a statement whose
canonical rendering, lowercased, does not begin with `select` is denied
with `NotAllowed`; concretely, `DROP` and `SHOW` statements fail that
test. -/
theorem nonselect_statement_notAllowed :
    (∀ (parse : String → Except String Stmt) (q : String) (L : List String) (stmt : Stmt),
        q ≠ "" → parse q = .ok stmt → startsWithSelect stmt.render = false →
        allowed parse q L = .err .notAllowed)
    ∧ startsWithSelect (Stmt.render (.dropDatabase "test")) = false
    ∧ startsWithSelect (Stmt.render .showDatabases) = false := by
  refine ⟨?_, by decide, by decide⟩
  intro parse q L stmt hq hp hns
  unfold allowed
  rw [if_neg hq, hp]
  show allowedStmt stmt L = Outcome.err .notAllowed
  unfold allowedStmt
  rw [hns]
  simp

/-- C8 witness: the query `drop database test` parses to a drop
statement and is denied even when its database name is on the
allow-list. -/
theorem nonselect_statement_notAllowed_witness :
    allowed parseFixtures ("drop database test") ["test"] = .err .notAllowed :=
  nonselect_statement_notAllowed.1 parseFixtures ("drop database test") ["test"]
    (.dropDatabase "test") (by decide) (by rfl) (by decide)

/-- C9: admission is monotone in the allow-list: growing the allow-list
(every element of `L` also an element of `L2`) never turns an admitted
query into a denied one, for every parse function and every raw query. -/
theorem allowed_monotone_in_allowlist :
    ∀ (parse : String → Except String Stmt) (q : String) (L L2 : List String),
      (∀ x, x ∈ L → x ∈ L2) →
      allowed parse q L = .ok → allowed parse q L2 = .ok := by
  intro parse q L L2 hsub h
  unfold allowed at h ⊢
  by_cases hq : q = ""
  · rw [if_pos hq] at h
    cases h
  · rw [if_neg hq] at h ⊢
    revert h
    cases hp : parse q with
    | error m =>
        intro h
        simp at h
    | ok stmt =>
        intro h
        change allowedStmt stmt L = Outcome.ok at h
        change allowedStmt stmt L2 = Outcome.ok
        rw [allowedStmt_ok_iff] at h ⊢
        obtain ⟨s, rfl, hall⟩ := h
        exact ⟨s, rfl, fun m hm => hsub _ (hall m hm)⟩

/-- C9 witness: the admitted fixture query stays admitted when the
allow-list grows from `m0` to `m0, extra`. -/
theorem allowed_monotone_in_allowlist_witness :
    allowed parseFixtures ("select a FROM m0") ["m0", "extra"] = .ok :=
  allowed_monotone_in_allowlist parseFixtures ("select a FROM m0") ["m0"] ["m0", "extra"]
    (by
      intro x hx
      rw [List.mem_singleton] at hx
      subst hx
      exact List.mem_cons_self _ _)
    (by decide)

/-- C10: the select test guards the unchecked type assertion: every
statement whose lowercased rendering begins with `select` is a select
statement, and the admission check never reaches the panic branch of the
assertion, for any statement and any allow-list. -/
theorem select_assertion_never_panics :
    ∀ (stmt : Stmt) (L : List String),
      (startsWithSelect stmt.render = true → stmt.isSelect = true)
      ∧ allowedStmt stmt L ≠ .panicked := by
  intro stmt L
  cases hsel : stmt.isSelect with
  | true =>
      cases stmt with
      | select s =>
          refine ⟨fun _ => rfl, ?_⟩
          rw [allowedStmt_select_eq]
          rcases checkMeasurements_none_or_notAllowed L (measurements s.sources) with h | h <;>
            rw [h] <;> simp
      | dropDatabase n => cases hsel
      | createDatabase n => cases hsel
      | showDatabases => cases hsel
  | false =>
      have hf := startsWithSelect_nonselect stmt hsel
      refine ⟨fun h => ?_, ?_⟩
      · rw [hf] at h
        cases h
      · rw [allowedStmt_nonselect_eq stmt L hsel]
        simp

/-- C10 witness: the fixture select statement passes the select test, is
indeed a select, and its check does not panic. -/
theorem select_assertion_never_panics_witness :
    Stmt.isSelect (.select ⟨"a", .cons (.meas ⟨"", "", "m0", none⟩) .nil⟩) = true
    ∧ allowedStmt (.select ⟨"a", .cons (.meas ⟨"", "", "m0", none⟩) .nil⟩) ["m0"] ≠
        .panicked :=
  ⟨(select_assertion_never_panics (.select ⟨"a", .cons (.meas ⟨"", "", "m0", none⟩) .nil⟩)
      ["m0"]).1 (by decide),
   (select_assertion_never_panics (.select ⟨"a", .cons (.meas ⟨"", "", "m0", none⟩) .nil⟩)
      ["m0"]).2⟩

end InfluxProxy
